import Mathlib

/-!
Verification of the LiveEchoMap acoustic simulation engine
(`src/backend/main.py`), a shallow embedding in Lean 4.

Python floating-point arithmetic is modelled by real arithmetic (`ℝ`);
`np.log10` is `Real.logb 10` and `np.linalg.norm` of a 3-vector is the
Euclidean norm written with `Real.sqrt`.  The mesh is modelled through its
only interface used by the engine: the ray query
`mesh.ray.intersects_location`, which either returns the list of
intersection locations or raises; we model it as a function into
`Except String (List Point3)`.  The random diagnostic logging in the
source (`np.random.random() < 0.01` guards around `logging`/`print`)
does not affect any computed value and is omitted.
-/

namespace LiveEchoMap

/-- A 3D point `[x, y, z]` as used throughout `main.py`. -/
structure Point3 where
  x : ℝ
  y : ℝ
  z : ℝ

/-- `np.linalg.norm(p - q)`: Euclidean distance between two 3D points. -/
noncomputable def dist3 (p q : Point3) : ℝ :=
  Real.sqrt ((p.x - q.x) ^ 2 + (p.y - q.y) ^ 2 + (p.z - q.z) ^ 2)

/-- `np.sqrt((x - source_pos[0])**2 + (z - source_pos[2])**2)` (main.py line 344):
the horizontal-plane (xz) distance; the y axis is vertical. -/
noncomputable def xzDistance (p q : Point3) : ℝ :=
  Real.sqrt ((p.x - q.x) ^ 2 + (p.z - q.z) ^ 2)

/-- `np.log10`. -/
noncomputable def log10 (x : ℝ) : ℝ := Real.logb 10 x

/-- The building mesh, seen through the single interface the engine uses:
`mesh.ray.intersects_location(ray_origins=[o], ray_directions=[d])` returns
the list of intersection locations, or raises (modelled by `Except.error`). -/
structure Mesh where
  raycast : Point3 → Point3 → Except String (List Point3)

/-- `ray_direction = direction / distance` with `direction = target_pos - source_pos`
(main.py lines 470-476). -/
noncomputable def rayDirection (source target : Point3) : Point3 :=
  ⟨(target.x - source.x) / dist3 target source,
   (target.y - source.y) / dist3 target source,
   (target.z - source.z) / dist3 target source⟩

open Classical in
/-- The counting loop of `calculate_fast_obstruction` (main.py lines 490-496):
a hit `loc` is valid iff `0.1 < np.linalg.norm(loc - source_pos) < distance - 0.1`. -/
noncomputable def countValidIntersections (source : Point3) (distance : ℝ) :
    List Point3 → ℕ
  | [] => 0
  | loc :: rest =>
      (if 0.1 < dist3 loc source ∧ dist3 loc source < distance - 0.1 then 1 else 0)
        + countValidIntersections source distance rest

/-- The obstruction-count → loss tiering of `calculate_fast_obstruction`
(main.py lines 506-514): 0 hits → 0 dB, 1-2 → 15 dB, 3-4 → 25 dB, ≥5 → 35 dB. -/
noncomputable def tierLoss (n : ℕ) : ℝ :=
  if n = 0 then 0 else if n ≤ 2 then 15 else if n ≤ 4 then 25 else 35

/-- `calculate_fast_obstruction(source_pos, target_pos, mesh)` (main.py lines 467-520):
returns 0 when source and target coincide (`distance < 1e-6`, no ray query),
returns 0 when the ray query raises, and otherwise returns the tier loss of the
valid-intersection count.  The outer `try` has nothing else to catch in the model. -/
noncomputable def calculate_fast_obstruction (source target : Point3) (mesh : Mesh) : ℝ :=
  if dist3 target source < 1e-6 then 0
  else
    match mesh.raycast source (rayDirection source target) with
    | Except.error _ => 0
    | Except.ok locations =>
        tierLoss (countValidIntersections source (dist3 target source) locations)

/-- `calculate_distance_only_attenuation(source_pos, target_pos, initial_db)`
(main.py lines 431-442), the no-building fallback:
`initial_db` unchanged when `distance < 0.1`, otherwise
`max(initial_db - 20*log10(distance) - distance*0.001, 0)`. -/
noncomputable def calculate_distance_only_attenuation
    (source target : Point3) (initial_db : ℝ) : ℝ :=
  if dist3 target source < 0.1 then initial_db
  else
    max (initial_db - 20 * log10 (dist3 target source) - dist3 target source * 0.001) 0

/-- `calculate_fast_sound_attenuation(source_pos, target_pos, initial_db, mesh)`
(main.py lines 444-465): `initial_db` unchanged when `distance < 0.1`, otherwise
`max(initial_db - 20*log10(distance) - obstruction_loss - distance*0.001, 0)`. -/
noncomputable def calculate_fast_sound_attenuation
    (source target : Point3) (initial_db : ℝ) (mesh : Mesh) : ℝ :=
  if dist3 target source < 0.1 then initial_db
  else
    max (initial_db - 20 * log10 (dist3 target source)
          - calculate_fast_obstruction source target mesh
          - dist3 target source * 0.001) 0

/-- A mesh whose ray query always returns no hits. -/
def meshNoHit : Mesh := ⟨fun _ _ => Except.ok []⟩

/-- A mesh whose ray query always returns three hit locations on the x axis. -/
def meshThreeHits : Mesh :=
  ⟨fun _ _ => Except.ok [⟨2, 0, 0⟩, ⟨3, 0, 0⟩, ⟨4, 0, 0⟩]⟩

/-- A mesh whose ray query always raises. -/
def meshRayFails : Mesh := ⟨fun _ _ => Except.error "raycast failed"⟩

lemma dist3_nonneg (p q : Point3) : 0 ≤ dist3 p q := Real.sqrt_nonneg _

/-- Distance between two points that differ only in the x coordinate. -/
lemma dist3_same_yz (a b y z : ℝ) : dist3 ⟨a, y, z⟩ ⟨b, y, z⟩ = |a - b| := by
  rw [dist3]
  norm_num
  exact Real.sqrt_sq_eq_abs _

/-- Distance between two points that differ only in the z coordinate. -/
lemma dist3_same_xy (x y a b : ℝ) : dist3 ⟨x, y, a⟩ ⟨x, y, b⟩ = |a - b| := by
  rw [dist3]
  norm_num
  exact Real.sqrt_sq_eq_abs _

lemma dist3_self (p : Point3) : dist3 p p = 0 := by
  simp [dist3]

lemma log10_ten : log10 10 = 1 := Real.logb_self_eq_one (by norm_num)

lemma tierLoss_nonneg (n : ℕ) : 0 ≤ tierLoss n := by
  rw [tierLoss]
  split_ifs <;> norm_num

lemma log10_tenth : log10 0.1 = -1 := by
  rw [log10, (by norm_num : (0.1 : ℝ) = (10 : ℝ)⁻¹), Real.logb_inv,
    Real.logb_self_eq_one (by norm_num)]

lemma dist3_ten : dist3 ⟨10, 0, 0⟩ ⟨0, 0, 0⟩ = 10 := by
  rw [dist3_same_yz]; norm_num

/-- When the ray query succeeds, `calculate_fast_obstruction` past the
coincidence guard is the tier loss of the valid-hit count. -/
lemma calculate_fast_obstruction_ok (source target : Point3) (mesh : Mesh)
    (locs : List Point3) (hd : ¬ dist3 target source < 1e-6)
    (hray : mesh.raycast source (rayDirection source target) = Except.ok locs) :
    calculate_fast_obstruction source target mesh =
      tierLoss (countValidIntersections source (dist3 target source) locs) := by
  rw [calculate_fast_obstruction, if_neg hd, hray]

/-- Claim C1: for a target at distance at least 0.1 from the source, the
attenuation returned is `max(initial_db - 20*log10(d) - tier(n) - 0.001*d, 0)`
where `n` is the valid-obstruction count of the ray query, with the tiering
tier(0)=0, tier(1..2)=15, tier(3..4)=25, tier(≥5)=35; in particular the level
at distance 10 with 0 obstructions is 79.99 and with 3 obstructions 54.99. -/
theorem C1_attenuation_formula :
    (∀ (source target : Point3) (initial_db : ℝ) (mesh : Mesh) (locs : List Point3),
        0.1 ≤ dist3 target source →
        mesh.raycast source (rayDirection source target) = Except.ok locs →
        calculate_fast_sound_attenuation source target initial_db mesh =
          max (initial_db - 20 * log10 (dist3 target source)
                - tierLoss (countValidIntersections source (dist3 target source) locs)
                - 0.001 * dist3 target source) 0) ∧
    tierLoss 0 = 0 ∧
    (∀ n, 1 ≤ n → n ≤ 2 → tierLoss n = 15) ∧
    (∀ n, 3 ≤ n → n ≤ 4 → tierLoss n = 25) ∧
    (∀ n, 5 ≤ n → tierLoss n = 35) ∧
    calculate_fast_sound_attenuation ⟨0, 0, 0⟩ ⟨10, 0, 0⟩ 100 meshNoHit = 79.99 ∧
    calculate_fast_sound_attenuation ⟨0, 0, 0⟩ ⟨10, 0, 0⟩ 100 meshThreeHits = 54.99 := by
  have hcount3 : countValidIntersections ⟨0, 0, 0⟩ 10 [⟨2, 0, 0⟩, ⟨3, 0, 0⟩, ⟨4, 0, 0⟩] = 3 := by
    have e2 : dist3 ⟨2, 0, 0⟩ ⟨0, 0, 0⟩ = 2 := by rw [dist3_same_yz]; norm_num
    have e3 : dist3 ⟨3, 0, 0⟩ ⟨0, 0, 0⟩ = 3 := by rw [dist3_same_yz]; norm_num
    have e4 : dist3 ⟨4, 0, 0⟩ ⟨0, 0, 0⟩ = 4 := by rw [dist3_same_yz]; norm_num
    simp only [countValidIntersections, e2, e3, e4]
    rw [if_pos (by norm_num), if_pos (by norm_num), if_pos (by norm_num)]
  refine ⟨?_, by rw [tierLoss]; norm_num, ?_, ?_, ?_, ?_, ?_⟩
  · intro source target initial_db mesh locs hd hray
    have hobs := calculate_fast_obstruction_ok source target mesh locs
      (by rw [not_lt]; linarith) hray
    rw [calculate_fast_sound_attenuation, if_neg (not_lt.mpr hd), hobs]
    congr 1
    ring
  · intro n h1 h2
    rw [tierLoss, if_neg (by omega), if_pos h2]
  · intro n h3 h4
    rw [tierLoss, if_neg (by omega), if_neg (by omega), if_pos h4]
  · intro n h5
    rw [tierLoss, if_neg (by omega), if_neg (by omega), if_neg (by omega)]
  · have hobs : calculate_fast_obstruction ⟨0, 0, 0⟩ ⟨10, 0, 0⟩ meshNoHit = 0 := by
      rw [calculate_fast_obstruction_ok _ _ _ [] (by rw [dist3_ten]; norm_num) rfl]
      rw [countValidIntersections, tierLoss]
      norm_num
    rw [calculate_fast_sound_attenuation, dist3_ten, if_neg (by norm_num), hobs, log10_ten,
      max_eq_left (by norm_num)]
    norm_num
  · have hobs : calculate_fast_obstruction ⟨0, 0, 0⟩ ⟨10, 0, 0⟩ meshThreeHits = 25 := by
      rw [calculate_fast_obstruction_ok _ _ _ [⟨2, 0, 0⟩, ⟨3, 0, 0⟩, ⟨4, 0, 0⟩]
        (by rw [dist3_ten]; norm_num) rfl]
      rw [dist3_ten, hcount3, tierLoss]
      norm_num
    rw [calculate_fast_sound_attenuation, dist3_ten, if_neg (by norm_num), hobs, log10_ten,
      max_eq_left (by norm_num)]
    norm_num

/-- Witness for C1 at source (0,0,0), target (10,0,0), level 100, empty-hit mesh. -/
theorem C1_witness :
    (0.1 : ℝ) ≤ dist3 ⟨10, 0, 0⟩ ⟨0, 0, 0⟩ ∧
    calculate_fast_sound_attenuation ⟨0, 0, 0⟩ ⟨10, 0, 0⟩ 100 meshNoHit =
      max (100 - 20 * log10 (dist3 ⟨10, 0, 0⟩ ⟨0, 0, 0⟩)
            - tierLoss (countValidIntersections ⟨0, 0, 0⟩ (dist3 ⟨10, 0, 0⟩ ⟨0, 0, 0⟩) [])
            - 0.001 * dist3 ⟨10, 0, 0⟩ ⟨0, 0, 0⟩) 0 := by
  have hd : (0.1 : ℝ) ≤ dist3 ⟨10, 0, 0⟩ ⟨0, 0, 0⟩ := by rw [dist3_ten]; norm_num
  exact ⟨hd, C1_attenuation_formula.1 ⟨0, 0, 0⟩ ⟨10, 0, 0⟩ 100 meshNoHit [] hd rfl⟩

/-- Claim C2: coincident endpoints (distance below 1e-6) give zero occlusion for
every mesh; a returned hit is counted iff its distance from the source lies
strictly inside (0.1, distance_to_target - 0.1), so hits at the source or
at/after target-minus-0.1 are never counted; past the guard the result is the
tier loss of exactly that count. -/
theorem C2_occlusion_epsilon :
    (∀ (source target : Point3) (mesh : Mesh),
        dist3 target source < 1e-6 → calculate_fast_obstruction source target mesh = 0) ∧
    (∀ (source : Point3) (d : ℝ) (loc : Point3) (locs : List Point3),
        dist3 loc source ≤ 0.1 ∨ d - 0.1 ≤ dist3 loc source →
        countValidIntersections source d (loc :: locs) =
          countValidIntersections source d locs) ∧
    (∀ (source : Point3) (d : ℝ) (loc : Point3) (locs : List Point3),
        0.1 < dist3 loc source → dist3 loc source < d - 0.1 →
        countValidIntersections source d (loc :: locs) =
          countValidIntersections source d locs + 1) ∧
    (∀ (source target : Point3) (mesh : Mesh) (locs : List Point3),
        ¬ dist3 target source < 1e-6 →
        mesh.raycast source (rayDirection source target) = Except.ok locs →
        calculate_fast_obstruction source target mesh =
          tierLoss (countValidIntersections source (dist3 target source) locs)) := by
  refine ⟨?_, ?_, ?_, calculate_fast_obstruction_ok⟩
  · intro source target mesh h
    rw [calculate_fast_obstruction, if_pos h]
  · intro source d loc locs h
    simp only [countValidIntersections]
    rw [if_neg (by rintro ⟨h1, h2⟩; rcases h with h | h <;> linarith)]
    omega
  · intro source d loc locs h1 h2
    simp only [countValidIntersections]
    rw [if_pos ⟨h1, h2⟩]
    omega

/-- Witness for C2: coincident endpoints give 0; at distance 10 the result is
the tier loss of the count of the three returned hits. -/
theorem C2_witness :
    calculate_fast_obstruction ⟨0, 0, 0⟩ ⟨0, 0, 0⟩ meshThreeHits = 0 ∧
    calculate_fast_obstruction ⟨0, 0, 0⟩ ⟨10, 0, 0⟩ meshThreeHits =
      tierLoss (countValidIntersections ⟨0, 0, 0⟩ (dist3 ⟨10, 0, 0⟩ ⟨0, 0, 0⟩)
        [⟨2, 0, 0⟩, ⟨3, 0, 0⟩, ⟨4, 0, 0⟩]) := by
  constructor
  · exact C2_occlusion_epsilon.1 _ _ _ (by rw [dist3_self]; norm_num)
  · exact C2_occlusion_epsilon.2.2.2 ⟨0, 0, 0⟩ ⟨10, 0, 0⟩ meshThreeHits _
      (by rw [dist3_ten]; norm_num) rfl

/-- Claim C4 as stated is false: the no-obstruction fallback is not
non-increasing in distance across the 0.1 near-field guard.  At level 100 the
value at distance 0.05 is 100 but at distance 0.1 it is 119.9999. -/
theorem C4_counterexample :
    ¬ (∀ (source t1 t2 : Point3) (initial_db : ℝ),
        dist3 t1 source ≤ dist3 t2 source →
        calculate_distance_only_attenuation source t2 initial_db ≤
          calculate_distance_only_attenuation source t1 initial_db) := by
  intro h
  have h05 : dist3 ⟨0.05, 0, 0⟩ ⟨0, 0, 0⟩ = 0.05 := by rw [dist3_same_yz]; norm_num
  have h01 : dist3 ⟨0.1, 0, 0⟩ ⟨0, 0, 0⟩ = 0.1 := by rw [dist3_same_yz]; norm_num
  have key := h ⟨0, 0, 0⟩ ⟨0.05, 0, 0⟩ ⟨0.1, 0, 0⟩ 100 (by rw [h05, h01]; norm_num)
  rw [calculate_distance_only_attenuation, calculate_distance_only_attenuation, h05, h01,
    if_neg (show ¬(0.1 : ℝ) < 0.1 by norm_num), if_pos (show (0.05 : ℝ) < 0.1 by norm_num),
    log10_tenth, max_eq_left (by norm_num)] at key
  norm_num at key

/-- Claim C4 amended: the no-obstruction fallback is non-increasing in distance
once both distances are at least 0.1 (outside the near-field guard). -/
theorem C4_monotone_amended (source t1 t2 : Point3) (initial_db : ℝ)
    (h1 : 0.1 ≤ dist3 t1 source) (h12 : dist3 t1 source ≤ dist3 t2 source) :
    calculate_distance_only_attenuation source t2 initial_db ≤
      calculate_distance_only_attenuation source t1 initial_db := by
  rw [calculate_distance_only_attenuation, calculate_distance_only_attenuation,
    if_neg (not_lt.mpr h1), if_neg (not_lt.mpr (le_trans h1 h12))]
  apply max_le_max _ le_rfl
  simp only [log10]
  have hlog : Real.logb 10 (dist3 t1 source) ≤ Real.logb 10 (dist3 t2 source) :=
    Real.logb_le_logb_of_le (by norm_num) (by linarith) h12
  linarith

/-- Witness for the amended C4 at distances 1 and 10. -/
theorem C4_witness :
    calculate_distance_only_attenuation ⟨0, 0, 0⟩ ⟨10, 0, 0⟩ 100 ≤
      calculate_distance_only_attenuation ⟨0, 0, 0⟩ ⟨1, 0, 0⟩ 100 :=
  C4_monotone_amended ⟨0, 0, 0⟩ ⟨1, 0, 0⟩ ⟨10, 0, 0⟩ 100
    (by rw [dist3_same_yz]; norm_num) (by rw [dist3_same_yz, dist3_same_yz]; norm_num)

/-- Claim C7: a failing ray query (Except.error) makes the occlusion
computation return 0 instead of propagating the error. -/
theorem C7_raycast_failure (source target : Point3) (mesh : Mesh) (msg : String)
    (h : mesh.raycast source (rayDirection source target) = Except.error msg) :
    calculate_fast_obstruction source target mesh = 0 := by
  rw [calculate_fast_obstruction]
  split_ifs with hd
  · rfl
  · rw [h]

/-- Witness for C7 with a mesh whose ray query always raises. -/
theorem C7_witness :
    calculate_fast_obstruction ⟨0, 0, 0⟩ ⟨10, 0, 0⟩ meshRayFails = 0 :=
  C7_raycast_failure ⟨0, 0, 0⟩ ⟨10, 0, 0⟩ meshRayFails "raycast failed" rfl

/-- `range(-steps, steps + 1)` (main.py lines 337-338), as integers. -/
def offsetRange (steps : ℕ) : List ℤ :=
  (List.range (2 * steps + 1)).map (fun k : ℕ => (k : ℤ) - (steps : ℤ))

lemma mem_offsetRange (steps : ℕ) (i : ℤ) :
    i ∈ offsetRange steps ↔ -(steps : ℤ) ≤ i ∧ i ≤ steps := by
  rw [offsetRange, List.mem_map]
  constructor
  · rintro ⟨k, hk, rfl⟩
    rw [List.mem_range] at hk
    omega
  · rintro ⟨h1, h2⟩
    refine ⟨(i + steps).toNat, ?_, ?_⟩
    · rw [List.mem_range]; omega
    · omega

/-- The grid-generation loop of `calculate_sound` (main.py lines 333-349):
`steps = int(calc_range / grid_size)`; for `x_step, z_step` in
`range(-steps, steps+1)` the candidate `(source_x + x_step*grid_size, source_y,
source_z + z_step*grid_size)` is kept with its 3D distance iff its xz-plane
distance from the source is ≤ `calc_range` and its 3D distance is ≥ 1. -/
noncomputable def gridPoints (source : Point3) (grid_size calc_range : ℝ) :
    List (Point3 × ℝ) :=
  (offsetRange ⌊calc_range / grid_size⌋₊).flatMap (fun i : ℤ =>
    (offsetRange ⌊calc_range / grid_size⌋₊).filterMap (fun j : ℤ =>
      if xzDistance ⟨source.x + (i : ℝ) * grid_size, source.y,
          source.z + (j : ℝ) * grid_size⟩ source ≤ calc_range then
        if 1 ≤ dist3 ⟨source.x + (i : ℝ) * grid_size, source.y,
            source.z + (j : ℝ) * grid_size⟩ source then
          some (⟨source.x + (i : ℝ) * grid_size, source.y, source.z + (j : ℝ) * grid_size⟩,
            dist3 ⟨source.x + (i : ℝ) * grid_size, source.y,
              source.z + (j : ℝ) * grid_size⟩ source)
        else none
      else none))

lemma xzDistance_same_z (a b y1 y2 z : ℝ) :
    xzDistance ⟨a, y1, z⟩ ⟨b, y2, z⟩ = |a - b| := by
  rw [xzDistance]
  norm_num
  exact Real.sqrt_sq_eq_abs _

/-- Membership characterization of the generated grid. -/
lemma mem_gridPoints (source : Point3) (g r : ℝ) (p : Point3) (d : ℝ) :
    (p, d) ∈ gridPoints source g r ↔
      ∃ i j : ℤ, -(⌊r / g⌋₊ : ℤ) ≤ i ∧ i ≤ ⌊r / g⌋₊ ∧
        -(⌊r / g⌋₊ : ℤ) ≤ j ∧ j ≤ ⌊r / g⌋₊ ∧
        p = ⟨source.x + i * g, source.y, source.z + j * g⟩ ∧
        d = dist3 p source ∧ xzDistance p source ≤ r ∧ 1 ≤ d := by
  simp only [gridPoints, List.mem_flatMap, List.mem_filterMap, mem_offsetRange]
  constructor
  · rintro ⟨i, ⟨hi1, hi2⟩, j, ⟨hj1, hj2⟩, hsome⟩
    split_ifs at hsome with hxz hd
    · rw [Option.some.injEq, Prod.mk.injEq] at hsome
      obtain ⟨hp, hdist⟩ := hsome
      subst hp
      subst hdist
      exact ⟨i, j, hi1, hi2, hj1, hj2, rfl, rfl, hxz, hd⟩
  · rintro ⟨i, j, hi1, hi2, hj1, hj2, hp, hdist, hxz, hd⟩
    refine ⟨i, ⟨hi1, hi2⟩, j, ⟨hj1, hj2⟩, ?_⟩
    subst hp
    subst hdist
    rw [if_pos hxz, if_pos hd]

/-- Claim C3: the grid enumerates integer offsets `i, j ∈ [-steps, steps]` with
`steps = floor(radius/spacing)` at the source's vertical coordinate, and keeps a
candidate iff its xz-plane distance from the source is ≤ radius and its 3D
distance is ≥ 1; a lattice point at planar distance exactly the radius is
included, one at planar distance radius + spacing is excluded. -/
theorem C3_grid_membership (source : Point3) (g r : ℝ) (hg : 0 < g) (_hr : 0 < r) :
    (∀ (p : Point3) (d : ℝ), (p, d) ∈ gridPoints source g r ↔
        ∃ i j : ℤ, -(⌊r / g⌋₊ : ℤ) ≤ i ∧ i ≤ ⌊r / g⌋₊ ∧
          -(⌊r / g⌋₊ : ℤ) ≤ j ∧ j ≤ ⌊r / g⌋₊ ∧
          p = ⟨source.x + i * g, source.y, source.z + j * g⟩ ∧
          d = dist3 p source ∧ xzDistance p source ≤ r ∧ 1 ≤ d) ∧
    (∀ i j : ℤ,
        xzDistance ⟨source.x + i * g, source.y, source.z + j * g⟩ source = r →
        1 ≤ dist3 ⟨source.x + i * g, source.y, source.z + j * g⟩ source →
        ((⟨source.x + i * g, source.y, source.z + j * g⟩ : Point3),
          dist3 ⟨source.x + i * g, source.y, source.z + j * g⟩ source) ∈
            gridPoints source g r) ∧
    (∀ (p : Point3) (d : ℝ), xzDistance p source = r + g →
        (p, d) ∉ gridPoints source g r) := by
  refine ⟨mem_gridPoints source g r, ?_, ?_⟩
  · intro i j hxz hd
    have hxzform : xzDistance ⟨source.x + i * g, source.y, source.z + j * g⟩ source
        = Real.sqrt (((i : ℝ) * g) ^ 2 + ((j : ℝ) * g) ^ 2) := by
      rw [xzDistance]
      congr 1
      ring
    have habs : ∀ k : ℤ, ((k : ℝ) * g) ^ 2 ≤ ((i : ℝ) * g) ^ 2 + ((j : ℝ) * g) ^ 2 →
        k.natAbs ≤ ⌊r / g⌋₊ := by
      intro k hk
      have h1 : |(k : ℝ) * g| ≤ r := by
        rw [← Real.sqrt_sq_eq_abs]
        calc Real.sqrt (((k : ℝ) * g) ^ 2)
            ≤ Real.sqrt (((i : ℝ) * g) ^ 2 + ((j : ℝ) * g) ^ 2) := Real.sqrt_le_sqrt hk
          _ = r := by rw [← hxzform, hxz]
      have h2 : (k.natAbs : ℝ) * g ≤ r := by
        calc (k.natAbs : ℝ) * g = |(k : ℝ)| * |g| := by
              rw [Int.cast_natAbs, Int.cast_abs, abs_of_pos hg]
          _ = |(k : ℝ) * g| := (abs_mul _ _).symm
          _ ≤ r := h1
      have h3 : (k.natAbs : ℝ) ≤ r / g := (le_div_iff₀ hg).mpr h2
      exact Nat.le_floor h3
    have hi : i.natAbs ≤ ⌊r / g⌋₊ :=
      habs i (by nlinarith [sq_nonneg ((j : ℝ) * g)])
    have hj : j.natAbs ≤ ⌊r / g⌋₊ :=
      habs j (by nlinarith [sq_nonneg ((i : ℝ) * g)])
    exact (mem_gridPoints source g r _ _).mpr
      ⟨i, j, by omega, by omega, by omega, by omega, rfl, rfl, le_of_eq hxz, hd⟩
  · intro p d hxz hmem
    obtain ⟨i, j, _, _, _, _, _, _, hle, _⟩ := (mem_gridPoints source g r p d).mp hmem
    rw [hxz] at hle
    linarith

/-- Witness for C3: spacing 1, radius 2, the lattice point (2,0,0) at planar
distance exactly the radius is a member of the generated grid. -/
theorem C3_witness :
    (0 : ℝ) < 1 ∧ (0 : ℝ) < 2 ∧
    ((⟨2, 0, 0⟩ : Point3), (2 : ℝ)) ∈ gridPoints ⟨0, 0, 0⟩ 1 2 := by
  have hfl : ⌊(2 : ℝ) / 1⌋₊ = 2 := by norm_num
  refine ⟨by norm_num, by norm_num, ?_⟩
  refine ((C3_grid_membership ⟨0, 0, 0⟩ 1 2 (by norm_num) (by norm_num)).1 _ _).mpr
    ⟨2, 0, ?_, ?_, ?_, ?_, ?_, ?_, ?_, by norm_num⟩
  · rw [hfl]; norm_num
  · rw [hfl]; norm_num
  · rw [hfl]; norm_num
  · rw [hfl]; norm_num
  · show (⟨2, 0, 0⟩ : Point3) = ⟨0 + ((2 : ℤ) : ℝ) * 1, 0, 0 + ((0 : ℤ) : ℝ) * 1⟩
    norm_num
  · rw [dist3_same_yz]; norm_num
  · rw [xzDistance_same_z]; norm_num

/-- One output row `{x, y, z, db, distance}` (main.py lines 421-427). -/
structure SampleResult where
  x : ℝ
  y : ℝ
  z : ℝ
  db : ℝ
  distance : ℝ

/-- The per-point body of `process_chunk` (main.py lines 410-427): with a mesh,
`calculate_fast_sound_attenuation`; without one, `calculate_distance_only_attenuation`. -/
noncomputable def process_point (source : Point3) (initial_db : ℝ) (mesh : Option Mesh)
    (pd : Point3 × ℝ) : SampleResult :=
  { x := pd.1.x, y := pd.1.y, z := pd.1.z,
    db := match mesh with
      | some m => calculate_fast_sound_attenuation source pd.1 initial_db m
      | none => calculate_distance_only_attenuation source pd.1 initial_db,
    distance := pd.2 }

/-- `process_chunk(points, source_pos, initial_db, ...)` (main.py lines 398-429):
one `SampleResult` per point of the chunk, in order. -/
noncomputable def process_chunk (source : Point3) (initial_db : ℝ) (mesh : Option Mesh)
    (chunk : List (Point3 × ℝ)) : List SampleResult :=
  chunk.map (process_point source initial_db mesh)

/-- `[calculation_points[i:i + chunk_size] for i in range(0, total_points, chunk_size)]`
(main.py lines 356-357).  The source guarantees `chunk_size = max(1, ...) ≥ 1`
(line 355); for such a chunk size this recursion yields exactly the Python
slices (`(x :: xs).drop cs = xs.drop (cs - 1)` when `cs ≥ 1`). -/
def chunkList {α : Type*} (cs : ℕ) : List α → List (List α)
  | [] => []
  | x :: xs => (x :: xs).take cs :: chunkList cs (xs.drop (cs - 1))
termination_by l => l.length
decreasing_by
  simp only [List.length_drop, List.length_cons]
  omega

/-- The result-collection loop of `calculate_sound` (main.py lines 374-385):
each completing chunk either delivers its result list (extended onto the
accumulator) or raises (logged, skipped). -/
def aggregateChunks (outcomes : List (Except String (List SampleResult))) :
    List SampleResult :=
  outcomes.foldl
    (fun acc o => match o with
      | Except.ok rs => acc ++ rs
      | Except.error _ => acc) []

/-- Chunk dispatch (main.py lines 362-371): chunk number `i` either raises
during execution (modelled by the oracle `fails`) or returns
`process_chunk` of its points. -/
noncomputable def dispatchChunks (source : Point3) (initial_db : ℝ) (mesh : Option Mesh)
    (fails : ℕ → Bool) : ℕ → List (List (Point3 × ℝ)) → List (Except String (List SampleResult))
  | _, [] => []
  | i, c :: rest =>
      (if fails i then Except.error "chunk failed"
       else Except.ok (process_chunk source initial_db mesh c))
        :: dispatchChunks source initial_db mesh fails (i + 1) rest

/-- `chunk_size = max(1, total_points // (mp.cpu_count() * 2))` and the slicing
(main.py lines 355-357). -/
def soundChunks (points : List (Point3 × ℝ)) (cpu_count : ℕ) : List (List (Point3 × ℝ)) :=
  chunkList (max 1 (points.length / (cpu_count * 2))) points

/-- The whole parallel execution part of `calculate_sound` (main.py lines 354-386),
with completion order modelled as submission order. -/
noncomputable def runChunks (source : Point3) (initial_db : ℝ) (mesh : Option Mesh)
    (fails : ℕ → Bool) (points : List (Point3 × ℝ)) (cpu_count : ℕ) : List SampleResult :=
  aggregateChunks (dispatchChunks source initial_db mesh fails 0 (soundChunks points cpu_count))

/-- The shared `current_progress` dictionary (main.py lines 57-63). -/
structure ProgressState where
  total : ℕ
  completed : ℕ
  percentage : ℝ
  status : String

/-- Initial value of `current_progress` (main.py lines 57-63). -/
def initialProgress : ProgressState := ⟨0, 0, 0, "idle"⟩

/-- The response dictionary of `calculate_sound` (main.py lines 389-396). -/
structure Response where
  results : List SampleResult
  source_pos : Point3
  initial_db : ℝ
  grid_size : ℝ
  calc_range : ℝ
  points_processed : ℕ

/-- `calculate_sound` (main.py lines 272-396), threaded through the process-wide
progress state: grid generation, chunking, dispatch, aggregation, response.
The function never reads or writes `current_progress` in the source — its only
completion counter is the request-local variable `completed` used for log lines
(lines 373-382) — so the shared state is returned unchanged. -/
noncomputable def calculate_sound (source : Point3) (initial_db : ℝ)
    (grid_size calc_range : ℝ) (mesh : Option Mesh) (cpu_count : ℕ)
    (fails : ℕ → Bool) (progress : ProgressState) : Response × ProgressState :=
  (⟨runChunks source initial_db mesh fails (gridPoints source grid_size calc_range) cpu_count,
    source, initial_db, grid_size, calc_range,
    (runChunks source initial_db mesh fails (gridPoints source grid_size calc_range)
      cpu_count).length⟩,
   progress)

lemma chunkList_flatten_aux {α : Type*} (cs : ℕ) (hcs : 1 ≤ cs) :
    ∀ (n : ℕ) (l : List α), l.length ≤ n → (chunkList cs l).flatten = l := by
  intro n
  induction n with
  | zero =>
    intro l hl
    cases l with
    | nil => simp [chunkList]
    | cons x xs => simp at hl
  | succ n ih =>
    intro l hl
    cases l with
    | nil => simp [chunkList]
    | cons x xs =>
      rw [chunkList, List.flatten_cons,
        ih (xs.drop (cs - 1)) (by rw [List.length_drop]; simp at hl; omega)]
      obtain ⟨k, rfl⟩ : ∃ k, cs = k + 1 := ⟨cs - 1, by omega⟩
      rw [show k + 1 - 1 = k from rfl, ← List.drop_succ_cons, List.take_append_drop]

lemma chunkList_flatten {α : Type*} (cs : ℕ) (hcs : 1 ≤ cs) (l : List α) :
    (chunkList cs l).flatten = l :=
  chunkList_flatten_aux cs hcs l.length l le_rfl

lemma chunkList_mem_aux {α : Type*} (cs : ℕ) (hcs : 1 ≤ cs) :
    ∀ (n : ℕ) (l : List α), l.length ≤ n →
      ∀ c ∈ chunkList cs l, c ≠ [] ∧ c.length ≤ cs := by
  intro n
  induction n with
  | zero =>
    intro l hl
    cases l with
    | nil => simp [chunkList]
    | cons x xs => simp at hl
  | succ n ih =>
    intro l hl
    cases l with
    | nil => simp [chunkList]
    | cons x xs =>
      rw [chunkList]
      intro c hc
      rcases List.mem_cons.mp hc with rfl | hc
      · constructor
        · obtain ⟨k, rfl⟩ : ∃ k, cs = k + 1 := ⟨cs - 1, by omega⟩
          rw [List.take_succ_cons]
          exact List.cons_ne_nil _ _
        · rw [List.length_take]
          exact min_le_left _ _
      · exact ih (xs.drop (cs - 1)) (by rw [List.length_drop]; simp at hl; omega) c hc

lemma chunkList_nil_iff {α : Type*} (cs : ℕ) (l : List α) :
    chunkList cs l = [] ↔ l = [] := by
  cases l with
  | nil => simp [chunkList]
  | cons x xs => rw [chunkList]; simp

lemma chunkList_dropLast_aux {α : Type*} (cs : ℕ) (hcs : 1 ≤ cs) :
    ∀ (n : ℕ) (l : List α), l.length ≤ n →
      ∀ c ∈ (chunkList cs l).dropLast, c.length = cs := by
  intro n
  induction n with
  | zero =>
    intro l hl
    cases l with
    | nil => simp [chunkList]
    | cons x xs => simp at hl
  | succ n ih =>
    intro l hl
    cases l with
    | nil => simp [chunkList]
    | cons x xs =>
      rw [chunkList]
      cases hrec : chunkList cs (xs.drop (cs - 1)) with
      | nil => simp
      | cons r rs =>
        rw [List.dropLast_cons₂]
        intro c hc
        rcases List.mem_cons.mp hc with rfl | hc
        · have hne : xs.drop (cs - 1) ≠ [] := by
            intro he
            rw [he] at hrec
            simp [chunkList] at hrec
          have hlen : cs - 1 < xs.length := by
            by_contra hge
            exact hne (List.drop_eq_nil_of_le (by omega))
          rw [List.length_take, List.length_cons]
          omega
        · rw [← hrec] at hc
          exact ih (xs.drop (cs - 1)) (by rw [List.length_drop]; simp at hl; omega) c hc

/-- Claim C9: the chunking uses size `max(1, total // (2*cpu_count))`, splits the
points into contiguous chunks of that size (last possibly shorter), every chunk
is non-empty, and concatenating the chunks in order restores the point list. -/
theorem C9_partitioning (points : List (Point3 × ℝ)) (cpu_count : ℕ) :
    (soundChunks points cpu_count).flatten = points ∧
    (∀ c ∈ soundChunks points cpu_count,
        c ≠ [] ∧ c.length ≤ max 1 (points.length / (cpu_count * 2))) ∧
    (∀ c ∈ (soundChunks points cpu_count).dropLast,
        c.length = max 1 (points.length / (cpu_count * 2))) := by
  have hcs : 1 ≤ max 1 (points.length / (cpu_count * 2)) := le_max_left _ _
  exact ⟨chunkList_flatten _ hcs points,
    chunkList_mem_aux _ hcs points.length points le_rfl,
    chunkList_dropLast_aux _ hcs points.length points le_rfl⟩

/-- Three sample calculation points used by concrete witnesses. -/
def samplePoints : List (Point3 × ℝ) :=
  [(⟨1, 0, 0⟩, 1), (⟨2, 0, 0⟩, 2), (⟨3, 0, 0⟩, 3)]

/-- Witness for C9: with three points and one cpu the chunks are three
singletons; the first is non-empty and no longer than the chunk size. -/
theorem C9_witness :
    ([((⟨1, 0, 0⟩ : Point3), (1 : ℝ))] : List (Point3 × ℝ)) ≠ [] ∧
    ([((⟨1, 0, 0⟩ : Point3), (1 : ℝ))] : List (Point3 × ℝ)).length ≤
      max 1 (samplePoints.length / (1 * 2)) := by
  refine (C9_partitioning samplePoints 1).2.1 _ ?_
  simp [soundChunks, samplePoints, chunkList]

/-- Recursive form of the collection loop: the concatenation of the successful
chunk results, in order. -/
def collectOk : List (Except String (List SampleResult)) → List SampleResult
  | [] => []
  | Except.ok rs :: rest => rs ++ collectOk rest
  | Except.error _ :: rest => collectOk rest

lemma aggregateChunks_eq (outcomes : List (Except String (List SampleResult))) :
    aggregateChunks outcomes = collectOk outcomes := by
  have key : ∀ (outs : List (Except String (List SampleResult))) (acc : List SampleResult),
      outs.foldl
        (fun acc o => match o with
          | Except.ok rs => acc ++ rs
          | Except.error _ => acc) acc = acc ++ collectOk outs := by
    intro outs
    induction outs with
    | nil => intro acc; simp [collectOk]
    | cons o rest ih =>
      intro acc
      cases o with
      | ok rs => rw [List.foldl_cons, ih, collectOk, List.append_assoc]
      | error e => rw [List.foldl_cons, ih, collectOk]
  rw [aggregateChunks, key, List.nil_append]

lemma collectOk_dispatch_ok (source : Point3) (initial_db : ℝ) (mesh : Option Mesh)
    (fails : ℕ → Bool) :
    ∀ (i : ℕ) (chunks : List (List (Point3 × ℝ))),
      (∀ k, i ≤ k → fails k = false) →
      collectOk (dispatchChunks source initial_db mesh fails i chunks)
        = (chunks.map (process_chunk source initial_db mesh)).flatten := by
  intro i chunks
  induction chunks generalizing i with
  | nil => intro _; simp [dispatchChunks, collectOk]
  | cons c rest ih =>
    intro h
    rw [dispatchChunks, if_neg (by rw [h i le_rfl]; exact Bool.false_ne_true), collectOk,
      List.map_cons, List.flatten_cons, ih (i + 1) (fun k hk => h k (by omega))]

lemma collectOk_dispatch_erase (source : Point3) (initial_db : ℝ) (mesh : Option Mesh)
    (j : ℕ) :
    ∀ (i : ℕ) (chunks : List (List (Point3 × ℝ))), i ≤ j →
      collectOk (dispatchChunks source initial_db mesh (fun k => k == j) i chunks)
        = ((chunks.eraseIdx (j - i)).map (process_chunk source initial_db mesh)).flatten := by
  intro i chunks
  induction chunks generalizing i with
  | nil => intro _; simp [dispatchChunks, collectOk]
  | cons c rest ih =>
    intro hij
    rw [dispatchChunks]
    by_cases hcase : i = j
    · subst hcase
      rw [if_pos (by simp), collectOk,
        collectOk_dispatch_ok source initial_db mesh _ (i + 1) rest
          (fun k hk => beq_eq_false_iff_ne.mpr (by omega)),
        Nat.sub_self]
      rfl
    · have hlt : i < j := lt_of_le_of_ne hij hcase
      rw [if_neg (by simp [hcase]), collectOk, ih (i + 1) (by omega)]
      have herase : (c :: rest).eraseIdx (j - i) = c :: rest.eraseIdx (j - i - 1) := by
        obtain ⟨m, hm⟩ : ∃ m, j - i = m + 1 := ⟨j - i - 1, by omega⟩
        rw [hm, List.eraseIdx_cons_succ, Nat.add_sub_cancel]
      have hsub : j - (i + 1) = j - i - 1 := by omega
      rw [herase, List.map_cons, List.flatten_cons, hsub]

lemma length_flatten_map_process (source : Point3) (initial_db : ℝ) (mesh : Option Mesh)
    (chunks : List (List (Point3 × ℝ))) :
    ((chunks.map (process_chunk source initial_db mesh)).flatten).length
      = (chunks.map List.length).sum := by
  induction chunks with
  | nil => simp
  | cons c rest ih =>
    rw [List.map_cons, List.flatten_cons, List.length_append, ih, List.map_cons,
      List.sum_cons, process_chunk, List.length_map]

lemma sum_length_eraseIdx {α : Type*} :
    ∀ (l : List (List α)) (j : ℕ) (hj : j < l.length),
      ((l.eraseIdx j).map List.length).sum + (l.get ⟨j, hj⟩).length
        = (l.map List.length).sum := by
  intro l
  induction l with
  | nil => intro j hj; simp at hj
  | cons c rest ih =>
    intro j hj
    cases j with
    | zero =>
      simp [List.eraseIdx]
      omega
    | succ m =>
      have h2 := ih m (by simpa using hj)
      rw [List.eraseIdx_cons_succ, List.map_cons, List.sum_cons, List.map_cons, List.sum_cons,
        List.get_cons_succ]
      omega

/-- Claim C6: when exactly the chunk with index `j` fails, the aggregated result
is the concatenation of all other chunks' results in order, its length is
`total_points - failed_chunk_size`, and (by the very type of the model: the
aggregation is a total function into a plain list) no exception propagates. -/
theorem C6_single_chunk_failure (source : Point3) (initial_db : ℝ) (mesh : Option Mesh)
    (points : List (Point3 × ℝ)) (cpu_count : ℕ) (j : ℕ)
    (hj : j < (soundChunks points cpu_count).length) :
    runChunks source initial_db mesh (fun i => i == j) points cpu_count =
      (((soundChunks points cpu_count).eraseIdx j).map
        (process_chunk source initial_db mesh)).flatten ∧
    (runChunks source initial_db mesh (fun i => i == j) points cpu_count).length =
      points.length - ((soundChunks points cpu_count).get ⟨j, hj⟩).length := by
  have h1 : runChunks source initial_db mesh (fun i => i == j) points cpu_count =
      (((soundChunks points cpu_count).eraseIdx j).map
        (process_chunk source initial_db mesh)).flatten := by
    rw [runChunks, aggregateChunks_eq,
      collectOk_dispatch_erase source initial_db mesh j 0 _ (by omega), Nat.sub_zero]
  refine ⟨h1, ?_⟩
  rw [h1, length_flatten_map_process]
  have hsum := sum_length_eraseIdx (soundChunks points cpu_count) j hj
  have htotal : ((soundChunks points cpu_count).map List.length).sum = points.length := by
    have hfl := congrArg List.length
      (chunkList_flatten (max 1 (points.length / (cpu_count * 2)))
        (le_max_left _ _) points)
    rwa [List.length_flatten] at hfl
  omega

/-- Witness for C6: three points, one cpu (three singleton chunks), chunk 1
fails; exactly 3 - 1 = 2 results are returned. -/
theorem C6_witness :
    (runChunks ⟨0, 0, 0⟩ 100 none (fun i => i == 1) samplePoints 1).length = 2 := by
  have hj : 1 < (soundChunks samplePoints 1).length := by
    simp [soundChunks, samplePoints, chunkList]
  rw [(C6_single_chunk_failure ⟨0, 0, 0⟩ 100 none samplePoints 1 1 hj).2]
  simp [soundChunks, samplePoints, chunkList]

/-- Claim C5 describes behaviour the source does not have: `calculate_sound`
never resets nor advances the shared `current_progress` (its only use of a
completion counter is the request-local `completed` variable feeding log lines,
main.py lines 373-382; `current_progress` is only ever read, by the
`/calculation_progress` endpoint).  The theorem shows the shared state is
returned unchanged by every request; in particular after the request of the
failing input it still carries `status = "idle"`, `completed = 0`, `total = 0`
instead of being reset to the request's totals. -/
theorem C5_progress_never_mutated :
    (∀ (source : Point3) (initial_db grid_size calc_range : ℝ) (mesh : Option Mesh)
        (cpu_count : ℕ) (fails : ℕ → Bool) (progress : ProgressState),
        (calculate_sound source initial_db grid_size calc_range mesh cpu_count fails
          progress).2 = progress) ∧
    (calculate_sound ⟨0, 0, 0⟩ 100 40 2000 none 4 (fun _ => false)
      initialProgress).2.status = "idle" ∧
    (calculate_sound ⟨0, 0, 0⟩ 100 40 2000 none 4 (fun _ => false)
      initialProgress).2.completed = 0 ∧
    (calculate_sound ⟨0, 0, 0⟩ 100 40 2000 none 4 (fun _ => false)
      initialProgress).2.total = 0 :=
  ⟨fun _ _ _ _ _ _ _ _ => rfl, rfl, rfl, rfl⟩

lemma mem_collectOk (outcomes : List (Except String (List SampleResult)))
    (res : SampleResult) (h : res ∈ collectOk outcomes) :
    ∃ rs, Except.ok rs ∈ outcomes ∧ res ∈ rs := by
  induction outcomes with
  | nil => simp [collectOk] at h
  | cons o rest ih =>
    cases o with
    | ok rs =>
      rw [collectOk, List.mem_append] at h
      rcases h with h | h
      · exact ⟨rs, List.mem_cons_self _ _, h⟩
      · obtain ⟨rs2, hmem, hres⟩ := ih h
        exact ⟨rs2, List.mem_cons_of_mem _ hmem, hres⟩
    | error e =>
      rw [collectOk] at h
      obtain ⟨rs2, hmem, hres⟩ := ih h
      exact ⟨rs2, List.mem_cons_of_mem _ hmem, hres⟩

lemma mem_dispatchChunks (source : Point3) (initial_db : ℝ) (mesh : Option Mesh)
    (fails : ℕ → Bool) (rs : List SampleResult) :
    ∀ (i : ℕ) (chunks : List (List (Point3 × ℝ))),
      Except.ok rs ∈ dispatchChunks source initial_db mesh fails i chunks →
      ∃ c ∈ chunks, rs = process_chunk source initial_db mesh c := by
  intro i chunks
  induction chunks generalizing i with
  | nil => intro h; simp [dispatchChunks] at h
  | cons c rest ih =>
    intro h
    rw [dispatchChunks] at h
    rcases List.mem_cons.mp h with heq | hmem
    · split_ifs at heq
      rw [Except.ok.injEq] at heq
      exact ⟨c, List.mem_cons_self _ _, heq⟩
    · obtain ⟨c2, hc2, hrs⟩ := ih (i + 1) hmem
      exact ⟨c2, List.mem_cons_of_mem _ hc2, hrs⟩

/-- Any sample produced by the engine comes from some generated grid point. -/
lemma mem_runChunks (source : Point3) (initial_db : ℝ) (mesh : Option Mesh)
    (fails : ℕ → Bool) (points : List (Point3 × ℝ)) (cpu_count : ℕ) (res : SampleResult)
    (h : res ∈ runChunks source initial_db mesh fails points cpu_count) :
    ∃ pd ∈ points, res = process_point source initial_db mesh pd := by
  rw [runChunks, aggregateChunks_eq] at h
  obtain ⟨rs, hrs, hres⟩ := mem_collectOk _ _ h
  obtain ⟨c, hc, rfl⟩ := mem_dispatchChunks source initial_db mesh fails rs 0 _ hrs
  rw [process_chunk, List.mem_map] at hres
  obtain ⟨pd, hpd, hres⟩ := hres
  refine ⟨pd, ?_, hres.symm⟩
  have hflat : (soundChunks points cpu_count).flatten = points :=
    chunkList_flatten _ (le_max_left _ _) points
  rw [← hflat]
  exact List.mem_flatten.mpr ⟨c, hc, hpd⟩

lemma calculate_fast_obstruction_nonneg (source target : Point3) (mesh : Mesh) :
    0 ≤ calculate_fast_obstruction source target mesh := by
  rw [calculate_fast_obstruction]
  split_ifs
  · exact le_refl 0
  · cases hray : mesh.raycast source (rayDirection source target) with
    | error e => rfl
    | ok locs => exact tierLoss_nonneg _

lemma calculate_distance_only_attenuation_nonneg (source target : Point3)
    (initial_db : ℝ) (h : ¬ dist3 target source < 0.1) :
    0 ≤ calculate_distance_only_attenuation source target initial_db := by
  rw [calculate_distance_only_attenuation, if_neg h]
  exact le_max_right _ 0

lemma calculate_fast_sound_attenuation_nonneg (source target : Point3)
    (initial_db : ℝ) (mesh : Mesh) (h : ¬ dist3 target source < 0.1) :
    0 ≤ calculate_fast_sound_attenuation source target initial_db mesh := by
  rw [calculate_fast_sound_attenuation, if_neg h]
  exact le_max_right _ 0

/-- Claim C8: every db in the result set of a request is ≥ 0 (and, the model
being real-valued, finite).  This holds because every generated grid point is
at distance ≥ 1 from the source, so both attenuation paths end in `max(_, 0)`. -/
theorem C8_db_nonneg (source : Point3) (initial_db grid_size calc_range : ℝ)
    (mesh : Option Mesh) (cpu_count : ℕ) (fails : ℕ → Bool) (progress : ProgressState) :
    List.Forall (fun res => 0 ≤ res.db)
      (calculate_sound source initial_db grid_size calc_range mesh cpu_count fails
        progress).1.results := by
  rw [List.forall_iff_forall_mem]
  intro res hres
  obtain ⟨pd, hpd, rfl⟩ := mem_runChunks source initial_db mesh fails _ cpu_count res hres
  obtain ⟨i, j, _, _, _, _, hp, hd, _, h1⟩ :=
    (mem_gridPoints source grid_size calc_range pd.1 pd.2).mp (by
      have : (pd.1, pd.2) = pd := rfl
      rw [this]
      exact hpd)
  have hfar : ¬ dist3 pd.1 source < 0.1 := by
    rw [not_lt]
    rw [hd] at h1
    linarith
  rw [process_point.eq_def]
  cases mesh with
  | none => exact calculate_distance_only_attenuation_nonneg source pd.1 initial_db hfar
  | some m => exact calculate_fast_sound_attenuation_nonneg source pd.1 initial_db m hfar

/-- Claim C10: at any target at distance ≥ 1 from the source (as all
engine-generated grid points are), both attenuation functions return at most
`max(initial_db, 0)`. -/
theorem C10_level_capped (source target : Point3) (initial_db : ℝ) (mesh : Mesh)
    (h : 1 ≤ dist3 target source) :
    calculate_distance_only_attenuation source target initial_db ≤ max initial_db 0 ∧
    calculate_fast_sound_attenuation source target initial_db mesh ≤ max initial_db 0 := by
  have hd01 : ¬ dist3 target source < 0.1 := not_lt.mpr (by linarith)
  have hlog : 0 ≤ log10 (dist3 target source) := Real.logb_nonneg (by norm_num) h
  have hair : 0 ≤ dist3 target source * 0.001 := by nlinarith
  have hobs := calculate_fast_obstruction_nonneg source target mesh
  constructor
  · rw [calculate_distance_only_attenuation, if_neg hd01]
    apply max_le_max _ le_rfl
    linarith
  · rw [calculate_fast_sound_attenuation, if_neg hd01]
    apply max_le_max _ le_rfl
    linarith

/-- Witness for C10 at source (0,0,0), target (10,0,0), level 100. -/
theorem C10_witness :
    calculate_distance_only_attenuation ⟨0, 0, 0⟩ ⟨10, 0, 0⟩ 100 ≤ max 100 0 ∧
    calculate_fast_sound_attenuation ⟨0, 0, 0⟩ ⟨10, 0, 0⟩ 100 meshNoHit ≤ max 100 0 :=
  C10_level_capped ⟨0, 0, 0⟩ ⟨10, 0, 0⟩ 100 meshNoHit (by rw [dist3_ten]; norm_num)

end LiveEchoMap
